import Mathlib

/-!
Verification of the Copilot-metrics dashboard's data-transformation core
(`src/app.py`): the record flattener `flatten_data`, the language-detail
extractor `extract_language_acceptance_data`, and the downstream
acceptance-rate aggregations.  Day records are modelled as structures with
optional fields (a missing JSON key is `none`); Python dict rows are
association lists with dict update semantics; pandas float results
(NaN / inf) are modelled by the `PFloat` type.
-/

namespace CopilotMetrics

/-- A cell value of a flattened row: the `date` column holds a string,
every other column holds an integer counter. -/
inductive Value where
  | str : String → Value
  | int : Int → Value
deriving DecidableEq, Repr

/-- A language object: `name` is accessed with a raw subscript in the code
(`lang['name']`, a KeyError when absent), the five counters with
`lang.get(..., 0)`.  The flat per-day language list only carries
`total_engaged_users`; the per-model lists carry all five counters. -/
structure LangEntry where
  name : Option String
  total_engaged_users : Option Int
  total_code_acceptances : Option Int
  total_code_suggestions : Option Int
  total_code_lines_accepted : Option Int
  total_code_lines_suggested : Option Int
deriving DecidableEq, Repr

/-- A model object under an editor: `model.get('languages', [])`. -/
structure ModelEntry where
  languages : Option (List LangEntry)
deriving DecidableEq, Repr

/-- An editor object: `editor['name']` (raw subscript),
`editor.get('total_engaged_users', 0)`, `editor.get('models', [])`. -/
structure EditorEntry where
  name : Option String
  total_engaged_users : Option Int
  models : Option (List ModelEntry)
deriving DecidableEq, Repr

/-- A nested metrics section carrying only `total_engaged_users`
(`copilot_ide_chat`, `copilot_dotcom_chat`, `copilot_dotcom_pull_requests`). -/
structure Sect where
  total_engaged_users : Option Int
deriving DecidableEq, Repr

/-- The `copilot_ide_code_completions` section. -/
structure Completions where
  total_engaged_users : Option Int
  languages : Option (List LangEntry)
  editors : Option (List EditorEntry)
deriving DecidableEq, Repr

/-- One day record of the input JSON array.  Every field is optional:
`day['date']` is a raw subscript (KeyError when absent), everything else is
read with `.get(key, default)`. -/
structure Day where
  date : Option String
  copilot_ide_chat : Option Sect
  copilot_ide_code_completions : Option Completions
  copilot_dotcom_chat : Option Sect
  copilot_dotcom_pull_requests : Option Sect
  total_active_users : Option Int
  total_engaged_users : Option Int
deriving DecidableEq, Repr

/-- A Python dict with string keys, as an ordered association list whose
keys are kept unique by `dictInsert`. -/
def Dict := List (String × Value)
deriving DecidableEq, Repr

/-- `d[k] = v` on a Python dict: replace the value in place when the key
exists, append the key otherwise. -/
def dictInsert : Dict → String → Value → Dict
  | [], k, v => [(k, v)]
  | p :: ps, k, v => if p.1 = k then (k, v) :: ps else p :: dictInsert ps k v

/-- Dict lookup, `none` when the key is absent (a NaN cell in the
DataFrame built from the row dicts). -/
def dictGet : Dict → String → Option Value
  | [], _ => none
  | p :: ps, k => if p.1 = k then some p.2 else dictGet ps k

/-- The keys of a dict, in insertion order. -/
def dictKeys (d : Dict) : List String := d.map (·.1)

/-- Insert a list of pairs in order (Python `dict.update` / `{**d, **m}`). -/
def foldIns (d : Dict) (ps : List (String × Value)) : Dict :=
  ps.foldl (fun d p => dictInsert d p.1 p.2) d

/-- Build a dict from pairs (a Python dict comprehension: later duplicate
keys overwrite earlier ones in place). -/
def buildDict (ps : List (String × Value)) : Dict := foldIns [] ps

/-- Evaluate a fallible computation on each element in order, stopping at
the first failure — the semantics of a Python loop or comprehension whose
body may raise. -/
def exMap (f : α → Except String β) : List α → Except String (List β)
  | [] => .ok []
  | x :: xs =>
    match f x with
    | .error e => .error e
    | .ok y =>
      match exMap f xs with
      | .error e => .error e
      | .ok ys => .ok (y :: ys)

/-- `day.get(section, {}).get('total_engaged_users', 0)`. -/
def sectUsers (s : Option Sect) : Int :=
  (s.bind (·.total_engaged_users)).getD 0

/-- `day.get('copilot_ide_code_completions', {}).get('languages', [])`. -/
def langsOf (day : Day) : List LangEntry :=
  (day.copilot_ide_code_completions.bind (·.languages)).getD []

/-- `day.get('copilot_ide_code_completions', {}).get('editors', [])`. -/
def editorsOf (day : Day) : List EditorEntry :=
  (day.copilot_ide_code_completions.bind (·.editors)).getD []

/-- One entry of the `language_usage` dict comprehension:
`lang['name']: lang.get('total_engaged_users', 0)`. -/
def langPairF (l : LangEntry) : Except String (String × Value) :=
  match l.name with
  | none => .error "KeyError: name"
  | some n => .ok (n, Value.int (l.total_engaged_users.getD 0))

/-- One entry of the prefixed editor dict:
`f'editor_\x7bk\x7d': editor.get('total_engaged_users', 0)`. -/
def editorPairF (e : EditorEntry) : Except String (String × Value) :=
  match e.name with
  | none => .error "KeyError: name"
  | some n => .ok ("editor_" ++ n, Value.int (e.total_engaged_users.getD 0))

/-- The `language_usage` dict of one day:
`{lang['name']: lang.get('total_engaged_users', 0) for lang in languages_data}`. -/
def language_usage (day : Day) : Except String Dict :=
  match exMap langPairF (langsOf day) with
  | .error e => .error e
  | .ok ps => .ok (buildDict ps)

/-- The seven fixed scalar entries of a flattened record, in the order the
dict literal writes them. -/
def baseRecord (date : String) (day : Day) : Dict :=
  [("date", Value.str date),
   ("ide_chat_users", Value.int (sectUsers day.copilot_ide_chat)),
   ("code_completion_users",
     Value.int ((day.copilot_ide_code_completions.bind (·.total_engaged_users)).getD 0)),
   ("dotcom_chat_users", Value.int (sectUsers day.copilot_dotcom_chat)),
   ("pr_users", Value.int (sectUsers day.copilot_dotcom_pull_requests)),
   ("total_active_users", Value.int (day.total_active_users.getD 0)),
   ("total_engaged_users", Value.int (day.total_engaged_users.getD 0))]

/-- The fixed (non-dynamic) column names of the flattener's output. -/
def fixedKeys : List String :=
  ["date", "ide_chat_users", "code_completion_users", "dotcom_chat_users",
   "pr_users", "total_active_users", "total_engaged_users"]

/-- Flatten one day record: the body of the `for day in data` loop of
`flatten_data`.  Raises (returns `.error`) exactly where the Python body
raises: `day['date']`, `lang['name']`, `editor['name']`. -/
def flattenDay (day : Day) : Except String Dict :=
  match day.date with
  | none => .error "KeyError: date"
  | some date =>
    match exMap langPairF (langsOf day) with
    | .error e => .error e
    | .ok langPairs =>
      match exMap editorPairF (editorsOf day) with
      | .error e => .error e
      | .ok editorPairs =>
        .ok (foldIns (foldIns (baseRecord date day) langPairs) editorPairs)

/-- `flatten_data`: one flattened record per input day, in input order.
The resulting list of dicts is what `pd.DataFrame` is built from. -/
def flatten_data (data : List Day) : Except String (List Dict) :=
  exMap flattenDay data

/-- The column set `pd.DataFrame(list_of_dicts)` derives: the union of the
rows' keys in first-seen order. -/
def colUnion (acc : List String) (ks : List String) : List String :=
  ks.foldl (fun a k => if k ∈ a then a else a ++ [k]) acc

/-- Columns of the DataFrame built from the flattened rows. -/
def dfColumns (rows : List Dict) : List String :=
  rows.foldl (fun acc r => colUnion acc (dictKeys r)) []

/-- The dynamic (non-fixed) columns of the DataFrame. -/
def dynColumns (rows : List Dict) : List String :=
  (dfColumns rows).filter (fun k => !(fixedKeys.contains k))

/-- The language names a day's flat language list carries. -/
def dayLangNames (day : Day) : List String :=
  (langsOf day).filterMap (·.name)

/-- The `editor_`-prefixed column names a day's editor list contributes. -/
def dayEditorCols (day : Day) : List String :=
  (editorsOf day).filterMap (fun e => e.name.map (fun n => "editor_" ++ n))

/-- All dynamic column names the input's days mention, languages bare and
editors prefixed. -/
def observedCols : List Day → List String
  | [] => []
  | d :: ds => (dayLangNames d ++ dayEditorCols d) ++ observedCols ds

/-- A day record on which `flatten_data` performs no raising access:
`date` present and every language / editor entry named. -/
def flattenWF (day : Day) : Bool :=
  day.date.isSome && (langsOf day).all (·.name.isSome)
    && (editorsOf day).all (·.name.isSome)

/-- One row of the language-detail table produced by
`extract_language_acceptance_data`. -/
structure LDRow where
  date : String
  editor : String
  language : String
  total_engaged_users : Int
  total_code_acceptances : Int
  total_code_suggestions : Int
  total_code_lines_accepted : Int
  total_code_lines_suggested : Int
deriving DecidableEq, Repr

/-- `editor.get('models', [])`. -/
def modelsOf (e : EditorEntry) : List ModelEntry := e.models.getD []

/-- `model.get('languages', [])`. -/
def modelLangsOf (m : ModelEntry) : List LangEntry := m.languages.getD []

/-- The dict appended for one language of one model: raises at
`lang['name']`, defaults each of the five counters to 0. -/
def extractLang (date editorName : String) (l : LangEntry) : Except String LDRow :=
  match l.name with
  | none => .error "KeyError: name"
  | some n =>
    .ok ⟨date, editorName, n,
         l.total_engaged_users.getD 0,
         l.total_code_acceptances.getD 0,
         l.total_code_suggestions.getD 0,
         l.total_code_lines_accepted.getD 0,
         l.total_code_lines_suggested.getD 0⟩

/-- The inner `for model in models` loop for one editor. -/
def extractEditor (date : String) (e : EditorEntry) : Except String (List LDRow) :=
  match e.name with
  | none => .error "KeyError: name"
  | some en =>
    match exMap (fun m => exMap (extractLang date en) (modelLangsOf m)) (modelsOf e) with
    | .error err => .error err
    | .ok rss => .ok rss.flatten

/-- The `for editor in editors` loop for one day. -/
def extractDay (day : Day) : Except String (List LDRow) :=
  match day.date with
  | none => .error "KeyError: date"
  | some date =>
    match exMap (extractEditor date) (editorsOf day) with
    | .error err => .error err
    | .ok rss => .ok rss.flatten

/-- `extract_language_acceptance_data`: one row per (editor, model,
language) triple of each day, accumulated across days in traversal order. -/
def extract_language_acceptance_data (data : List Day) : Except String (List LDRow) :=
  match exMap extractDay data with
  | .error err => .error err
  | .ok rss => .ok rss.flatten

/-- The rows one day contributes, written as a pure nested traversal
(names read with a default, meaningful on well-formed days). -/
def dayTriples (day : Day) : List LDRow :=
  ((editorsOf day).map (fun e =>
    ((modelsOf e).map (fun m =>
      (modelLangsOf m).map (fun l =>
        ⟨day.date.getD "", e.name.getD "", l.name.getD "",
         l.total_engaged_users.getD 0,
         l.total_code_acceptances.getD 0,
         l.total_code_suggestions.getD 0,
         l.total_code_lines_accepted.getD 0,
         l.total_code_lines_suggested.getD 0⟩))).flatten)).flatten

/-- The number of (editor, model, language) triples present under a day's
completions section. -/
def tripleCount (day : Day) : Nat :=
  ((editorsOf day).map (fun e =>
    ((modelsOf e).map (fun m => (modelLangsOf m).length)).sum)).sum

/-- A day record on which the extractor performs no raising access. -/
def extractWF (day : Day) : Bool :=
  day.date.isSome && (editorsOf day).all (fun e =>
    e.name.isSome && (modelsOf e).all (fun m =>
      (modelLangsOf m).all (·.name.isSome)))

/-- A pandas float value: finite, NaN, or a signed infinity. -/
inductive PFloat where
  | val : ℚ → PFloat
  | nan : PFloat
  | inf : PFloat
  | ninf : PFloat
deriving DecidableEq

/-- Float division as pandas performs it on integer columns: `0/0` is NaN,
`a/0` is a signed infinity for `a ≠ 0`. -/
def pdiv : PFloat → PFloat → PFloat
  | .val a, .val b =>
    if b = 0 then (if a = 0 then .nan else if a > 0 then .inf else .ninf)
    else .val (a / b)
  | .nan, _ => .nan
  | _, .nan => .nan
  | .inf, _ => .inf
  | .ninf, _ => .ninf
  | .val a, .inf => if a = 0 then .val 0 else .val 0
  | .val a, .ninf => if a = 0 then .val 0 else .val 0

/-- Multiplication by the positive literal 100 (`... * 100`). -/
def pmul100 : PFloat → PFloat
  | .val a => .val (a * 100)
  | .nan => .nan
  | .inf => .inf
  | .ninf => .ninf

/-- `.replace([np.inf, -np.inf], 0)`. -/
def replaceInf : PFloat → PFloat
  | .inf => .val 0
  | .ninf => .val 0
  | x => x

/-- `.fillna(0)`. -/
def fillna0 : PFloat → PFloat
  | .nan => .val 0
  | x => x

/-- `groupby(key).agg(num: 'sum')` read back at group `k`: the sum of the
column over the rows of that group. -/
def sumBy (key : LDRow → String) (num : LDRow → Int) (rows : List LDRow) (k : String) : Int :=
  ((rows.filter (fun r => key r = k)).map num).sum

/-- The grouped-rate pipeline of `create_acceptance_rate_analysis` and the
daily trend of `create_productivity_analysis`:
`num.sum / den.sum * 100`, then `.replace([np.inf, -np.inf], 0)`, then
`.fillna(0)`. -/
def groupRate (key : LDRow → String) (num den : LDRow → Int)
    (rows : List LDRow) (k : String) : PFloat :=
  fillna0 (replaceInf (pmul100 (pdiv
    (.val ((sumBy key num rows k : Int) : ℚ))
    (.val ((sumBy key den rows k : Int) : ℚ)))))

/-- `language_stats['acceptance_rate']` at language `l`. -/
def acceptanceRateByLanguage (rows : List LDRow) (l : String) : PFloat :=
  groupRate (·.language) (·.total_code_acceptances) (·.total_code_suggestions) rows l

/-- `language_stats['lines_acceptance_rate']` at language `l`. -/
def linesAcceptanceRateByLanguage (rows : List LDRow) (l : String) : PFloat :=
  groupRate (·.language) (·.total_code_lines_accepted) (·.total_code_lines_suggested) rows l

/-- `daily_stats['acceptance_rate']` at date `d`. -/
def acceptanceRateByDate (rows : List LDRow) (d : String) : PFloat :=
  groupRate (·.date) (·.total_code_acceptances) (·.total_code_suggestions) rows d

/-- `overall_acceptance_rate` of `create_productivity_analysis`:
a plain Python expression guarded by `if total_suggestions > 0 else 0`. -/
def overall_acceptance_rate (rows : List LDRow) : ℚ :=
  let s : Int := (rows.map (·.total_code_suggestions)).sum
  let a : Int := (rows.map (·.total_code_acceptances)).sum
  if s > 0 then (a : ℚ) / (s : ℚ) * 100 else 0

/-- `lines_acceptance_rate` of `create_productivity_analysis`, likewise
guarded. -/
def overall_lines_acceptance_rate (rows : List LDRow) : ℚ :=
  let s : Int := (rows.map (·.total_code_lines_suggested)).sum
  let a : Int := (rows.map (·.total_code_lines_accepted)).sum
  if s > 0 then (a : ℚ) / (s : ℚ) * 100 else 0

/-- Left-biased choice on optional cell values. -/
def optOr : Option Value → Option Value → Option Value
  | some v, _ => some v
  | none, y => y

/-! Concrete inputs used by the example claim, the counterexamples and
the witnesses. -/

/-! Concrete inputs used by the example claim, the counterexamples and
the witnesses. -/

/-- The one-day example input of the spec. -/
def exampleDay : Day :=
  { date := some "2024-01-01"
    copilot_ide_chat := none
    copilot_ide_code_completions := some
      { total_engaged_users := none
        languages := some [⟨some "python", some 3, none, none, none, none⟩]
        editors := none }
    copilot_dotcom_chat := none
    copilot_dotcom_pull_requests := none
    total_active_users := some 10
    total_engaged_users := some 5 }

/-- The row the example input flattens to. -/
def exampleRow : Dict :=
  [("date", Value.str "2024-01-01"),
   ("ide_chat_users", Value.int 0),
   ("code_completion_users", Value.int 0),
   ("dotcom_chat_users", Value.int 0),
   ("pr_users", Value.int 0),
   ("total_active_users", Value.int 10),
   ("total_engaged_users", Value.int 5),
   ("python", Value.int 3)]

/-- A day missing the `copilot_ide_chat` section whose completions section
names a language literally called `ide_chat_users`. -/
def collideDay : Day :=
  { date := some "2024-01-01"
    copilot_ide_chat := none
    copilot_ide_code_completions := some
      { total_engaged_users := none
        languages := some [⟨some "ide_chat_users", some 7, none, none, none, none⟩]
        editors := none }
    copilot_dotcom_chat := none
    copilot_dotcom_pull_requests := none
    total_active_users := none
    total_engaged_users := none }

/-- The row `collideDay` flattens to: the language overwrote the fixed
`ide_chat_users` scalar. -/
def collideRow : Dict :=
  [("date", Value.str "2024-01-01"),
   ("ide_chat_users", Value.int 7),
   ("code_completion_users", Value.int 0),
   ("dotcom_chat_users", Value.int 0),
   ("pr_users", Value.int 0),
   ("total_active_users", Value.int 0),
   ("total_engaged_users", Value.int 0)]

/-- Day 1 of the C4 counterexample: mentions the language `python`. -/
def pyDay : Day :=
  { date := some "2024-01-01"
    copilot_ide_chat := none
    copilot_ide_code_completions := some
      { total_engaged_users := none
        languages := some [⟨some "python", some 3, none, none, none, none⟩]
        editors := none }
    copilot_dotcom_chat := none
    copilot_dotcom_pull_requests := none
    total_active_users := none
    total_engaged_users := none }

/-- Day 2 of the C4 counterexample: no completions section at all. -/
def emptyDay : Day :=
  { date := some "2024-01-02"
    copilot_ide_chat := none
    copilot_ide_code_completions := none
    copilot_dotcom_chat := none
    copilot_dotcom_pull_requests := none
    total_active_users := none
    total_engaged_users := none }

/-- The row `pyDay` flattens to. -/
def pyRow : Dict :=
  [("date", Value.str "2024-01-01"),
   ("ide_chat_users", Value.int 0),
   ("code_completion_users", Value.int 0),
   ("dotcom_chat_users", Value.int 0),
   ("pr_users", Value.int 0),
   ("total_active_users", Value.int 0),
   ("total_engaged_users", Value.int 0),
   ("python", Value.int 3)]

/-- The row `emptyDay` flattens to. -/
def emptyRow : Dict :=
  [("date", Value.str "2024-01-02"),
   ("ide_chat_users", Value.int 0),
   ("code_completion_users", Value.int 0),
   ("dotcom_chat_users", Value.int 0),
   ("pr_users", Value.int 0),
   ("total_active_users", Value.int 0),
   ("total_engaged_users", Value.int 0)]

/-- A day whose completions section names a language literally called
`date`. -/
def dateLangDay : Day :=
  { date := some "2024-01-03"
    copilot_ide_chat := none
    copilot_ide_code_completions := some
      { total_engaged_users := none
        languages := some [⟨some "date", some 1, none, none, none, none⟩]
        editors := none }
    copilot_dotcom_chat := none
    copilot_dotcom_pull_requests := none
    total_active_users := none
    total_engaged_users := none }

/-- The row `dateLangDay` flattens to: the language overwrote the `date`
column, adding no dynamic column. -/
def dateLangRow : Dict :=
  [("date", Value.int 1),
   ("ide_chat_users", Value.int 0),
   ("code_completion_users", Value.int 0),
   ("dotcom_chat_users", Value.int 0),
   ("pr_users", Value.int 0),
   ("total_active_users", Value.int 0),
   ("total_engaged_users", Value.int 0)]

/-- A day with a date whose completions section contains a language entry
with no `name` key. -/
def namelessDay : Day :=
  { date := some "2024-01-04"
    copilot_ide_chat := none
    copilot_ide_code_completions := some
      { total_engaged_users := none
        languages := some [⟨none, some 3, none, none, none, none⟩]
        editors := none }
    copilot_dotcom_chat := none
    copilot_dotcom_pull_requests := none
    total_active_users := none
    total_engaged_users := none }

/-- A day whose completions section lists the languages `editor_vscode`
(1 engaged user) and `b` (2 engaged users) and the editor `vscode`
(9 engaged users). -/
def prefixClashDay : Day :=
  { date := some "2024-01-05"
    copilot_ide_chat := none
    copilot_ide_code_completions := some
      { total_engaged_users := none
        languages := some [⟨some "editor_vscode", some 1, none, none, none, none⟩,
                           ⟨some "b", some 2, none, none, none, none⟩]
        editors := some [⟨some "vscode", some 9, none⟩] }
    copilot_dotcom_chat := none
    copilot_dotcom_pull_requests := none
    total_active_users := none
    total_engaged_users := none }

/-- The row `prefixClashDay` flattens to: the editor column `editor_vscode`
overwrote the language column of the same name. -/
def prefixClashRow : Dict :=
  [("date", Value.str "2024-01-05"),
   ("ide_chat_users", Value.int 0),
   ("code_completion_users", Value.int 0),
   ("dotcom_chat_users", Value.int 0),
   ("pr_users", Value.int 0),
   ("total_active_users", Value.int 0),
   ("total_engaged_users", Value.int 0),
   ("editor_vscode", Value.int 9),
   ("b", Value.int 2)]

/-- A three-triple day: one editor, two models, the first naming two
languages and the second re-naming `py`. -/
def tripleDay : Day :=
  { date := some "2024-01-08"
    copilot_ide_chat := none
    copilot_ide_code_completions := some
      { total_engaged_users := none
        languages := none
        editors := some [⟨some "vscode", some 9,
          some [⟨some [⟨some "py", some 1, some 2, some 4, none, none⟩,
                       ⟨some "js", none, none, none, none, none⟩]⟩,
                ⟨some [⟨some "py", some 7, none, none, none, none⟩]⟩]⟩] }
    copilot_dotcom_chat := none
    copilot_dotcom_pull_requests := none
    total_active_users := none
    total_engaged_users := none }

/-- One detail row with 5 acceptances against 0 suggestions. -/
def zeroSuggRow : LDRow := ⟨"2024-01-01", "vscode", "python", 1, 5, 0, 0, 3⟩

lemma optOr_none_right (a : Option Value) : optOr a none = a := by
  cases a <;> rfl

lemma optOr_assoc (a b c : Option Value) :
    optOr (optOr a b) c = optOr a (optOr b c) := by
  cases a <;> rfl

lemma dictGet_dictInsert_self (d : Dict) (k : String) (v : Value) :
    dictGet (dictInsert d k v) k = some v := by
  induction d with
  | nil => simp [dictInsert, dictGet]
  | cons p ps ih =>
    by_cases h : p.1 = k
    · simp [dictInsert, h, dictGet]
    · simp [dictInsert, h, dictGet, ih]

lemma dictGet_dictInsert_ne (d : Dict) {k k' : String} (v : Value) (h : k ≠ k') :
    dictGet (dictInsert d k v) k' = dictGet d k' := by
  induction d with
  | nil => simp [dictInsert, dictGet, h]
  | cons p ps ih =>
    by_cases hp : p.1 = k
    · simp [dictInsert, hp, dictGet, h]
    · simp [dictInsert, hp, dictGet, ih]

lemma dictGet_dictInsert (d : Dict) (k k' : String) (v : Value) :
    dictGet (dictInsert d k v) k' =
      if k = k' then some v else dictGet d k' := by
  by_cases h : k = k'
  · subst h; simp [dictGet_dictInsert_self]
  · simp [h, dictGet_dictInsert_ne d v h]

lemma dictGet_foldIns (ps : List (String × Value)) (d : Dict) (k : String) :
    dictGet (foldIns d ps) k = optOr (dictGet (buildDict ps) k) (dictGet d k) := by
  induction ps generalizing d with
  | nil => simp [foldIns, buildDict, dictGet, optOr]
  | cons p ps ih =>
    have step : ∀ d' : Dict, foldIns d' (p :: ps) = foldIns (dictInsert d' p.1 p.2) ps := by
      intro d'; rfl
    rw [buildDict, step, step, ih, ih]
    rw [dictGet_dictInsert, dictGet_dictInsert]
    by_cases h : p.1 = k
    · simp only [h, if_pos rfl]
      rw [optOr_assoc]
      simp [optOr, dictGet]
    · simp only [if_neg h]
      rw [optOr_assoc]
      simp [optOr, dictGet]

lemma mem_dictKeys_dictInsert (d : Dict) (k k' : String) (v : Value) :
    k' ∈ dictKeys (dictInsert d k v) ↔ k' ∈ dictKeys d ∨ k' = k := by
  induction d with
  | nil => simp [dictInsert, dictKeys]
  | cons p ps ih =>
    by_cases hp : p.1 = k
    · simp only [dictInsert, if_pos hp, dictKeys, List.map_cons, List.mem_cons] at *
      rw [hp]; tauto
    · simp only [dictInsert, if_neg hp, dictKeys, List.map_cons, List.mem_cons] at *
      rw [ih]; tauto

lemma mem_dictKeys_foldIns (ps : List (String × Value)) (d : Dict) (k : String) :
    k ∈ dictKeys (foldIns d ps) ↔ k ∈ dictKeys d ∨ k ∈ ps.map (·.1) := by
  induction ps generalizing d with
  | nil => simp [foldIns]
  | cons p ps ih =>
    have step : foldIns d (p :: ps) = foldIns (dictInsert d p.1 p.2) ps := rfl
    rw [step, ih, mem_dictKeys_dictInsert]
    simp only [List.map_cons, List.mem_cons]
    tauto

lemma dictGet_eq_none_iff (d : Dict) (k : String) :
    dictGet d k = none ↔ k ∉ dictKeys d := by
  induction d with
  | nil => simp [dictGet, dictKeys]
  | cons p ps ih =>
    by_cases hp : p.1 = k
    · simp [dictGet, hp, dictKeys]
    · simp only [dictGet, if_neg hp, dictKeys, List.map_cons, List.mem_cons, ih]
      constructor
      · intro h hm
        rcases hm with h1 | h2
        · exact hp h1.symm
        · exact h h2
      · intro h h2
        exact h (Or.inr h2)

lemma exMap_eq_ok_map {f : α → Except String β} {g : α → β} {xs : List α}
    (h : ∀ x ∈ xs, f x = .ok (g x)) : exMap f xs = .ok (xs.map g) := by
  induction xs with
  | nil => rfl
  | cons x xs ih =>
    have hx : f x = .ok (g x) := h x (List.mem_cons_self x xs)
    have ih' := ih (fun y hy => h y (List.mem_cons_of_mem x hy))
    simp [exMap, hx, ih']

lemma exMap_ok_forall₂ {f : α → Except String β} :
    ∀ {xs : List α} {ys : List β}, exMap f xs = .ok ys →
      List.Forall₂ (fun x y => f x = .ok y) xs ys := by
  intro xs
  induction xs with
  | nil =>
    intro ys h
    simp only [exMap] at h
    cases h
    exact List.Forall₂.nil
  | cons x xs ih =>
    intro ys h
    simp only [exMap] at h
    cases hfx : f x with
    | error e => rw [hfx] at h; cases h
    | ok y =>
      rw [hfx] at h
      cases hrec : exMap f xs with
      | error e => rw [hrec] at h; cases h
      | ok ys' =>
        rw [hrec] at h
        cases h
        exact List.Forall₂.cons hfx (ih hrec)

lemma exMap_ok_of_mem_left {f : α → Except String β} :
    ∀ {xs : List α} {ys : List β}, exMap f xs = .ok ys → ∀ {x : α}, x ∈ xs →
      ∃ y ∈ ys, f x = .ok y := by
  intro xs
  induction xs with
  | nil => intro ys _ x hx; cases hx
  | cons x' xs ih =>
    intro ys h x hx
    simp only [exMap] at h
    cases hfx : f x' with
    | error e => rw [hfx] at h; cases h
    | ok y =>
      rw [hfx] at h
      cases hrec : exMap f xs with
      | error e => rw [hrec] at h; cases h
      | ok ys' =>
        rw [hrec] at h
        cases h
        rcases List.mem_cons.mp hx with h1 | h2
        · subst h1; exact ⟨y, List.mem_cons_self _ _, hfx⟩
        · obtain ⟨y', hy', hf⟩ := ih hrec h2
          exact ⟨y', List.mem_cons_of_mem _ hy', hf⟩

lemma exMap_ok_of_mem_right {f : α → Except String β} :
    ∀ {xs : List α} {ys : List β}, exMap f xs = .ok ys → ∀ {y : β}, y ∈ ys →
      ∃ x ∈ xs, f x = .ok y := by
  intro xs
  induction xs with
  | nil =>
    intro ys h y hy
    simp only [exMap] at h
    cases h
    cases hy
  | cons x' xs ih =>
    intro ys h y hy
    simp only [exMap] at h
    cases hfx : f x' with
    | error e => rw [hfx] at h; cases h
    | ok y' =>
      rw [hfx] at h
      cases hrec : exMap f xs with
      | error e => rw [hrec] at h; cases h
      | ok ys' =>
        rw [hrec] at h
        cases h
        rcases List.mem_cons.mp hy with h1 | h2
        · subst h1; exact ⟨x', List.mem_cons_self _ _, hfx⟩
        · obtain ⟨x, hx, hf⟩ := ih hrec h2
          exact ⟨x, List.mem_cons_of_mem _ hx, hf⟩

lemma exMap_isOk_iff {f : α → Except String β} {xs : List α} :
    (∃ ys, exMap f xs = .ok ys) ↔ ∀ x ∈ xs, ∃ y, f x = .ok y := by
  induction xs with
  | nil => simp [exMap]
  | cons x xs ih =>
    constructor
    · rintro ⟨ys, h⟩ z hz
      rcases List.mem_cons.mp hz with h1 | h2
      · subst h1
        obtain ⟨y, _, hy⟩ := exMap_ok_of_mem_left h (List.mem_cons_self _ xs)
        exact ⟨y, hy⟩
      · simp only [exMap] at h
        cases hfx : f x with
        | error e => rw [hfx] at h; cases h
        | ok y =>
          rw [hfx] at h
          cases hrec : exMap f xs with
          | error e => rw [hrec] at h; cases h
          | ok ys' =>
            exact (ih.mp ⟨ys', hrec⟩) z h2
    · intro h
      obtain ⟨y, hy⟩ := h x (List.mem_cons_self x xs)
      obtain ⟨ys, hys⟩ := ih.mpr (fun z hz => h z (List.mem_cons_of_mem x hz))
      exact ⟨y :: ys, by simp [exMap, hy, hys]⟩

lemma langPairs_fst :
    ∀ {ls : List LangEntry} {ps : List (String × Value)},
      exMap langPairF ls = .ok ps → ps.map (·.1) = ls.filterMap (·.name) := by
  intro ls
  induction ls with
  | nil =>
    intro ps h
    simp only [exMap] at h
    cases h
    rfl
  | cons l ls ih =>
    intro ps h
    simp only [exMap] at h
    cases hn : l.name with
    | none => rw [show langPairF l = .error "KeyError: name" by simp [langPairF, hn]] at h; cases h
    | some n =>
      rw [show langPairF l = .ok (n, Value.int (l.total_engaged_users.getD 0)) by
            simp [langPairF, hn]] at h
      cases hrec : exMap langPairF ls with
      | error e => rw [hrec] at h; cases h
      | ok ps' =>
        rw [hrec] at h
        cases h
        simp [List.filterMap_cons, hn, ih hrec]

lemma editorPairs_fst :
    ∀ {es : List EditorEntry} {ps : List (String × Value)},
      exMap editorPairF es = .ok ps →
      ps.map (·.1) = es.filterMap (fun e => e.name.map (fun n => "editor_" ++ n)) := by
  intro es
  induction es with
  | nil =>
    intro ps h
    simp only [exMap] at h
    cases h
    rfl
  | cons e es ih =>
    intro ps h
    simp only [exMap] at h
    cases hn : e.name with
    | none => rw [show editorPairF e = .error "KeyError: name" by simp [editorPairF, hn]] at h; cases h
    | some n =>
      rw [show editorPairF e = .ok ("editor_" ++ n, Value.int (e.total_engaged_users.getD 0)) by
            simp [editorPairF, hn]] at h
      cases hrec : exMap editorPairF es with
      | error err => rw [hrec] at h; cases h
      | ok ps' =>
        rw [hrec] at h
        cases h
        simp [List.filterMap_cons, hn, ih hrec]

lemma dictKeys_baseRecord (date : String) (day : Day) :
    dictKeys (baseRecord date day) = fixedKeys := rfl

/-- Destructure a successful `flattenDay`. -/
lemma flattenDay_ok_elim {day : Day} {r : Dict} (h : flattenDay day = .ok r) :
    ∃ date langPairs editorPairs,
      day.date = some date ∧
      exMap langPairF (langsOf day) = .ok langPairs ∧
      exMap editorPairF (editorsOf day) = .ok editorPairs ∧
      r = foldIns (foldIns (baseRecord date day) langPairs) editorPairs := by
  unfold flattenDay at h
  cases hd : day.date with
  | none => rw [hd] at h; cases h
  | some date =>
    rw [hd] at h
    cases hl : exMap langPairF (langsOf day) with
    | error e => rw [hl] at h; cases h
    | ok langPairs =>
      rw [hl] at h
      cases he : exMap editorPairF (editorsOf day) with
      | error e => rw [he] at h; cases h
      | ok editorPairs =>
        rw [he] at h
        cases h
        exact ⟨date, langPairs, editorPairs, rfl, rfl, rfl, rfl⟩

/-- The keys of a flattened record: the seven fixed columns, the day's
language names, and the day's prefixed editor names. -/
lemma mem_dictKeys_flattenDay {day : Day} {r : Dict} (h : flattenDay day = .ok r)
    (k : String) :
    k ∈ dictKeys r ↔ k ∈ fixedKeys ∨ k ∈ dayLangNames day ∨ k ∈ dayEditorCols day := by
  obtain ⟨date, langPairs, editorPairs, _, hl, he, hr⟩ := flattenDay_ok_elim h
  subst hr
  rw [mem_dictKeys_foldIns, mem_dictKeys_foldIns, dictKeys_baseRecord,
      langPairs_fst hl, editorPairs_fst he]
  unfold dayLangNames dayEditorCols
  tauto

lemma flattenDay_isOk_iff (day : Day) :
    (∃ r, flattenDay day = .ok r) ↔ flattenWF day = true := by
  unfold flattenDay flattenWF
  cases hd : day.date with
  | none => simp
  | some date =>
    simp only [Option.isSome_some, Bool.true_and]
    constructor
    · rintro ⟨r, h⟩
      cases hl : exMap langPairF (langsOf day) with
      | error e => rw [hl] at h; cases h
      | ok langPairs =>
        rw [hl] at h
        cases he : exMap editorPairF (editorsOf day) with
        | error e => rw [he] at h; cases h
        | ok editorPairs =>
          have h1 : ∀ l ∈ langsOf day, (·.name.isSome) l = true := by
            intro l hl2
            obtain ⟨p, _, hp⟩ := exMap_ok_of_mem_left hl hl2
            cases hn : l.name with
            | none => rw [show langPairF l = .error "KeyError: name" by simp [langPairF, hn]] at hp; cases hp
            | some n => simp [hn]
          have h2 : ∀ e ∈ editorsOf day, (·.name.isSome) e = true := by
            intro e he2
            obtain ⟨p, _, hp⟩ := exMap_ok_of_mem_left he he2
            cases hn : e.name with
            | none => rw [show editorPairF e = .error "KeyError: name" by simp [editorPairF, hn]] at hp; cases hp
            | some n => simp [hn]
          rw [Bool.and_eq_true, List.all_eq_true, List.all_eq_true]
          exact ⟨h1, h2⟩
    · intro hwf
      rw [Bool.and_eq_true, List.all_eq_true, List.all_eq_true] at hwf
      obtain ⟨langPairs, hl⟩ :=
        (@exMap_isOk_iff _ _ langPairF (langsOf day)).mpr (fun l hl2 => by
          obtain ⟨n, hn⟩ := Option.isSome_iff_exists.mp (hwf.1 l hl2)
          exact ⟨(n, Value.int (l.total_engaged_users.getD 0)), by simp [langPairF, hn]⟩)
      obtain ⟨editorPairs, he⟩ :=
        (@exMap_isOk_iff _ _ editorPairF (editorsOf day)).mpr (fun e he2 => by
          obtain ⟨n, hn⟩ := Option.isSome_iff_exists.mp (hwf.2 e he2)
          exact ⟨("editor_" ++ n, Value.int (e.total_engaged_users.getD 0)),
                 by simp [editorPairF, hn]⟩)
      exact ⟨_, by rw [hl, he]⟩

lemma mem_colUnion (ks : List String) (acc : List String) (k : String) :
    k ∈ colUnion acc ks ↔ k ∈ acc ∨ k ∈ ks := by
  induction ks generalizing acc with
  | nil => simp [colUnion]
  | cons k' ks ih =>
    have step : colUnion acc (k' :: ks) =
        colUnion (if k' ∈ acc then acc else acc ++ [k']) ks := rfl
    rw [step]
    by_cases h : k' ∈ acc
    · rw [if_pos h, ih]
      simp only [List.mem_cons]
      constructor
      · rintro (h1 | h2)
        · exact Or.inl h1
        · exact Or.inr (Or.inr h2)
      · rintro (h1 | rfl | h2)
        · exact Or.inl h1
        · exact Or.inl h
        · exact Or.inr h2
    · rw [if_neg h, ih]
      simp only [List.mem_append, List.mem_singleton, List.mem_cons]
      tauto

lemma mem_dfColumns_aux (rows : List Dict) (acc : List String) (k : String) :
    k ∈ rows.foldl (fun acc r => colUnion acc (dictKeys r)) acc ↔
      k ∈ acc ∨ ∃ r ∈ rows, k ∈ dictKeys r := by
  induction rows generalizing acc with
  | nil => simp
  | cons r rows ih =>
    simp only [List.foldl_cons, ih, mem_colUnion, List.mem_cons]
    constructor
    · rintro ((h1 | h2) | ⟨r', hr', hk⟩)
      · exact Or.inl h1
      · exact Or.inr ⟨r, Or.inl rfl, h2⟩
      · exact Or.inr ⟨r', Or.inr hr', hk⟩
    · rintro (h1 | ⟨r', hr' | hr', hk⟩)
      · exact Or.inl (Or.inl h1)
      · subst hr'; exact Or.inl (Or.inr hk)
      · exact Or.inr ⟨r', hr', hk⟩

lemma mem_dfColumns (rows : List Dict) (k : String) :
    k ∈ dfColumns rows ↔ ∃ r ∈ rows, k ∈ dictKeys r := by
  rw [dfColumns, mem_dfColumns_aux]
  simp

lemma mem_observedCols (days : List Day) (k : String) :
    k ∈ observedCols days ↔
      ∃ d ∈ days, k ∈ dayLangNames d ∨ k ∈ dayEditorCols d := by
  induction days with
  | nil => simp [observedCols]
  | cons d ds ih =>
    simp only [observedCols, List.mem_append, ih, List.mem_cons]
    constructor
    · rintro ((h1 | h2) | ⟨d', hd', hk⟩)
      · exact ⟨d, Or.inl rfl, Or.inl h1⟩
      · exact ⟨d, Or.inl rfl, Or.inr h2⟩
      · exact ⟨d', Or.inr hd', hk⟩
    · rintro ⟨d', hd' | hd', hk⟩
      · subst hd'; tauto
      · exact Or.inr ⟨d', hd', hk⟩

/-- No fixed column name starts with the editor prefix, so a prefixed
editor column can never collide with a fixed column. -/
lemma editorCol_not_fixed (n : String) : ("editor_" ++ n) ∉ fixedKeys := by
  intro h
  simp only [fixedKeys, List.mem_cons, List.not_mem_nil, or_false] at h
  rcases h with h | h | h | h | h | h | h <;>
  · have h2 := congrArg String.data h
    rw [String.data_append] at h2
    rw [show "editor_".data = 'e' :: ['d', 'i', 't', 'o', 'r', '_'] from rfl] at h2
    simp only [List.cons_append] at h2
    have h4 := congrArg List.head? h2
    simp only [List.head?_cons] at h4
    exact absurd h4 (by decide)

lemma mem_dayEditorCols {day : Day} {k : String} (h : k ∈ dayEditorCols day) :
    ∃ n, k = "editor_" ++ n := by
  unfold dayEditorCols at h
  obtain ⟨e, _, he⟩ := List.mem_filterMap.mp h
  obtain ⟨n, _, hn⟩ := Option.map_eq_some'.mp he
  exact ⟨n, hn.symm⟩

lemma mem_dayEditorCols_iff {day : Day} {k : String} :
    k ∈ dayEditorCols day ↔
      ∃ e ∈ editorsOf day, ∃ n, e.name = some n ∧ k = "editor_" ++ n := by
  unfold dayEditorCols
  rw [List.mem_filterMap]
  constructor
  · rintro ⟨e, he, hmap⟩
    obtain ⟨n, hn, hk⟩ := Option.map_eq_some'.mp hmap
    exact ⟨e, he, n, hn, hk.symm⟩
  · rintro ⟨e, he, n, hn, rfl⟩
    exact ⟨e, he, by rw [hn]; rfl⟩

lemma fixed_not_editorCol {day : Day} {k : String} (hk : k ∈ fixedKeys) :
    k ∉ dayEditorCols day := by
  intro h
  obtain ⟨n, rfl⟩ := mem_dayEditorCols h
  exact editorCol_not_fixed n hk

/-- A cell of a flattened record at a key no editor column claims: the
language map's entry when present, the base record's entry otherwise. -/
lemma dictGet_flattenDay {day : Day} {r : Dict} (h : flattenDay day = .ok r)
    {k : String} (hk : k ∉ dayEditorCols day) :
    ∃ date langPairs,
      day.date = some date ∧
      exMap langPairF (langsOf day) = .ok langPairs ∧
      dictGet r k =
        optOr (dictGet (buildDict langPairs) k) (dictGet (baseRecord date day) k) := by
  obtain ⟨date, langPairs, editorPairs, hd, hl, he, hr⟩ := flattenDay_ok_elim h
  subst hr
  refine ⟨date, langPairs, hd, hl, ?_⟩
  rw [dictGet_foldIns, dictGet_foldIns]
  have hep : dictGet (buildDict editorPairs) k = none := by
    rw [dictGet_eq_none_iff]
    intro hmem
    rw [buildDict, mem_dictKeys_foldIns] at hmem
    rcases hmem with h1 | h2
    · cases h1
    · rw [editorPairs_fst he] at h2
      exact hk h2
  rw [hep]
  rfl

/-! Concrete inputs used by the example claim, counterexamples and
witnesses. -/

/-- Claim C2: flattening the spec's one-day example produces exactly one
row, whose `total_active_users` column is 10, `total_engaged_users` is 5,
and whose dynamically named `python` column is 3. -/
theorem flatten_example_single_row :
    flatten_data [exampleDay] = .ok [exampleRow] ∧
    dictGet exampleRow "total_active_users" = some (Value.int 10) ∧
    dictGet exampleRow "total_engaged_users" = some (Value.int 5) ∧
    dictGet exampleRow "python" = some (Value.int 3) := by
  refine ⟨?_, ?_, ?_, ?_⟩ <;> rfl

lemma flatten_data_ok_get {days : List Day} {rows : List Dict}
    (h : flatten_data days = .ok rows) :
    rows.length = days.length ∧
    ∀ (i : ℕ) (h1 : i < days.length) (h2 : i < rows.length),
      flattenDay (days.get ⟨i, h1⟩) = .ok (rows.get ⟨i, h2⟩) := by
  have hf := exMap_ok_forall₂ h
  have := List.forall₂_iff_get.mp hf
  exact ⟨this.1.symm, this.2⟩

/-- Claim C7: whenever `flatten_data` succeeds it emits exactly one row
per input day, and the i-th output row is the flattening of the i-th
input day. -/
theorem flatten_one_row_per_day_in_order (days : List Day) (rows : List Dict)
    (h : flatten_data days = .ok rows) :
    rows.length = days.length ∧
    ∀ (i : ℕ) (h1 : i < days.length) (h2 : i < rows.length),
      flattenDay (days.get ⟨i, h1⟩) = .ok (rows.get ⟨i, h2⟩) :=
  flatten_data_ok_get h

/-- Witness for C7 at the spec's example input. -/
theorem flatten_one_row_per_day_in_order_witness :
    flattenDay exampleDay = .ok exampleRow := by
  have h := flatten_one_row_per_day_in_order [exampleDay] [exampleRow] (by rfl)
  exact h.2 0 (by decide) (by decide)

/-- Counterexample to C3 as stated: `collideDay` has a date and is missing
the `copilot_ide_chat` section, yet its `ide_chat_users` scalar column is
7, not 0 — a language named like the fixed column overwrote it. -/
theorem flatten_missing_section_zero_counterexample :
    collideDay.copilot_ide_chat = none ∧
    flatten_data [collideDay] = .ok [collideRow] ∧
    dictGet collideRow "ide_chat_users" = some (Value.int 7) ∧
    some (Value.int 7) ≠ some (Value.int 0) := by
  refine ⟨rfl, by rfl, by rfl, by decide⟩

/-- Claim C3 (amended): for a day record with a date, with every
language / editor entry named, and whose language names avoid the seven
fixed column names, the flattener produces the row with no error, and any
missing optional section or top-level total yields a 0 — present, not
absent — in the corresponding scalar column. -/
theorem flatten_missing_sections_zero (day : Day)
    (hwf : flattenWF day = true)
    (hnc : ∀ n ∈ dayLangNames day, n ∉ fixedKeys) :
    ∃ r, flattenDay day = .ok r ∧
      (day.copilot_ide_chat = none →
        dictGet r "ide_chat_users" = some (Value.int 0)) ∧
      (day.copilot_ide_code_completions = none →
        dictGet r "code_completion_users" = some (Value.int 0)) ∧
      (day.copilot_dotcom_chat = none →
        dictGet r "dotcom_chat_users" = some (Value.int 0)) ∧
      (day.copilot_dotcom_pull_requests = none →
        dictGet r "pr_users" = some (Value.int 0)) ∧
      (day.total_active_users = none →
        dictGet r "total_active_users" = some (Value.int 0)) ∧
      (day.total_engaged_users = none →
        dictGet r "total_engaged_users" = some (Value.int 0)) := by
  obtain ⟨r, hr⟩ := (flattenDay_isOk_iff day).mpr hwf
  refine ⟨r, hr, ?_⟩
  have base : ∀ k ∈ fixedKeys,
      dictGet r k = dictGet (baseRecord ((day.date).getD "") day) k := by
    intro k hk
    obtain ⟨date, langPairs, hd, hl, hget⟩ :=
      dictGet_flattenDay hr (fixed_not_editorCol hk)
    have hlp : dictGet (buildDict langPairs) k = none := by
      rw [dictGet_eq_none_iff]
      intro hmem
      rw [buildDict, mem_dictKeys_foldIns] at hmem
      rcases hmem with h1 | h2
      · cases h1
      · rw [langPairs_fst hl] at h2
        exact hnc k h2 hk
    rw [hget, hlp, hd]
    rfl
  refine ⟨?_, ?_, ?_, ?_, ?_, ?_⟩ <;> intro hsec
  · rw [base "ide_chat_users" (by decide),
        show dictGet (baseRecord ((day.date).getD "") day) "ide_chat_users" =
          some (Value.int (sectUsers day.copilot_ide_chat)) from rfl, hsec]
    rfl
  · rw [base "code_completion_users" (by decide),
        show dictGet (baseRecord ((day.date).getD "") day) "code_completion_users" =
          some (Value.int ((day.copilot_ide_code_completions.bind
            (·.total_engaged_users)).getD 0)) from rfl, hsec]
    rfl
  · rw [base "dotcom_chat_users" (by decide),
        show dictGet (baseRecord ((day.date).getD "") day) "dotcom_chat_users" =
          some (Value.int (sectUsers day.copilot_dotcom_chat)) from rfl, hsec]
    rfl
  · rw [base "pr_users" (by decide),
        show dictGet (baseRecord ((day.date).getD "") day) "pr_users" =
          some (Value.int (sectUsers day.copilot_dotcom_pull_requests)) from rfl, hsec]
    rfl
  · rw [base "total_active_users" (by decide),
        show dictGet (baseRecord ((day.date).getD "") day) "total_active_users" =
          some (Value.int ((day.total_active_users).getD 0)) from rfl, hsec]
    rfl
  · rw [base "total_engaged_users" (by decide),
        show dictGet (baseRecord ((day.date).getD "") day) "total_engaged_users" =
          some (Value.int ((day.total_engaged_users).getD 0)) from rfl, hsec]
    rfl

/-- Witness for the amended C3 at a day missing every optional section. -/
theorem flatten_missing_sections_zero_witness :
    ∃ r, flattenDay ⟨some "2024-01-02", none, none, none, none, none, none⟩ = .ok r ∧
      dictGet r "ide_chat_users" = some (Value.int 0) := by
  obtain ⟨r, hok, h1, _⟩ :=
    flatten_missing_sections_zero ⟨some "2024-01-02", none, none, none, none, none, none⟩
      (by decide) (by decide)
  exact ⟨r, hok, h1 rfl⟩

/-- Counterexample to C4 as stated: `python` is a dynamic column of the
two-day output, yet on the day that does not mention `python` the cell is
absent (`none`, a NaN in the DataFrame), not the value 0. -/
theorem flatten_dynamic_zero_fill_counterexample :
    flatten_data [pyDay, emptyDay] = .ok [pyRow, emptyRow] ∧
    "python" ∈ dfColumns [pyRow, emptyRow] ∧
    "python" ∉ fixedKeys ∧
    dictGet emptyRow "python" = none ∧
    none ≠ some (Value.int 0) := by
  refine ⟨by rfl, by decide, by decide, by rfl, by decide⟩

/-- Claim C4 (amended): a dynamic column is NOT zero-filled on a day where
its name does not appear: for every successful flattening, any column name
that is neither a fixed column nor among that day's language names or
prefixed editor names has a missing (`none` / NaN) cell in that day's row. -/
theorem flatten_absent_name_cell_missing (days : List Day) (rows : List Dict)
    (h : flatten_data days = .ok rows)
    (i : Nat) (h1 : i < days.length) (h2 : i < rows.length)
    (k : String)
    (hk1 : k ∉ fixedKeys)
    (hk2 : k ∉ dayLangNames (days.get ⟨i, h1⟩))
    (hk3 : k ∉ dayEditorCols (days.get ⟨i, h1⟩)) :
    dictGet (rows.get ⟨i, h2⟩) k = none := by
  have hday := (flatten_data_ok_get h).2 i h1 h2
  rw [dictGet_eq_none_iff]
  intro hmem
  rcases (mem_dictKeys_flattenDay hday k).mp hmem with hf | hl | he
  · exact hk1 hf
  · exact hk2 hl
  · exact hk3 he

/-- Witness for the amended C4: the `python` cell of the second day. -/
theorem flatten_absent_name_cell_missing_witness :
    dictGet ([pyRow, emptyRow].get ⟨1, by decide⟩) "python" = none :=
  flatten_absent_name_cell_missing [pyDay, emptyDay] [pyRow, emptyRow] (by rfl)
    1 (by decide) (by decide) "python" (by decide) (by decide) (by decide)

/-- Counterexample to C5 as stated: for the one-day input naming the
language `date`, the output has no dynamic column at all, while the set of
observed language/editor names is exactly the singleton `date`. -/
theorem flatten_dynamic_columns_counterexample :
    flatten_data [dateLangDay] = .ok [dateLangRow] ∧
    dynColumns [dateLangRow] = [] ∧
    observedCols [dateLangDay] = ["date"] := by
  refine ⟨by rfl, by rfl, by rfl⟩

/-- Claim C5 (amended): provided no language name equals one of the seven
fixed column names, the set of dynamic (non-fixed) columns of a successful
flattening equals the set of language names and `editor_`-prefixed editor
names observed across all days. -/
theorem flatten_dynamic_columns_union (days : List Day) (rows : List Dict)
    (h : flatten_data days = .ok rows)
    (hnc : ∀ day ∈ days, ∀ n ∈ dayLangNames day, n ∉ fixedKeys)
    (k : String) :
    k ∈ dynColumns rows ↔ k ∈ observedCols days := by
  have hdyn : k ∈ dynColumns rows ↔ k ∈ dfColumns rows ∧ k ∉ fixedKeys := by
    unfold dynColumns
    rw [List.mem_filter]
    simp
  rw [hdyn, mem_dfColumns, mem_observedCols]
  constructor
  · rintro ⟨⟨r, hr, hkr⟩, hnf⟩
    obtain ⟨day, hday, hok⟩ := exMap_ok_of_mem_right h hr
    rcases (mem_dictKeys_flattenDay hok k).mp hkr with hf | hl | he
    · exact absurd hf hnf
    · exact ⟨day, hday, Or.inl hl⟩
    · exact ⟨day, hday, Or.inr he⟩
  · rintro ⟨day, hday, hcase⟩
    obtain ⟨r, hr, hok⟩ := exMap_ok_of_mem_left h hday
    refine ⟨⟨r, hr, (mem_dictKeys_flattenDay hok k).mpr (Or.inr hcase)⟩, ?_⟩
    rcases hcase with hl | he
    · exact hnc day hday k hl
    · intro hf
      obtain ⟨n, rfl⟩ := mem_dayEditorCols he
      exact editorCol_not_fixed n hf

/-- Witness for the amended C5: `python` is the sole dynamic column of the
one-day `pyDay` input. -/
theorem flatten_dynamic_columns_union_witness :
    "python" ∈ dynColumns [pyRow] :=
  (flatten_dynamic_columns_union [pyDay] [pyRow] (by rfl) (by decide) "python").mpr
    (by decide)

/-- Counterexample to C8 as stated: `namelessDay` has its mandatory date
field, yet the flattener raises (a KeyError at `lang['name']`), so an
error is not raised only on records missing the date field. -/
theorem flatten_error_iff_counterexample :
    namelessDay.date = some "2024-01-04" ∧
    flatten_data [namelessDay] = .error "KeyError: name" :=
  ⟨rfl, rfl⟩

/-- Claim C8 (amended): the flattener raises if and only if some day
record is missing the mandatory date field, or some language or editor
entry under its completions section is missing its name field (the raw
`lang['name']` / `editor['name']` subscripts); no other day-record shape
raises. -/
theorem flatten_error_iff (days : List Day) :
    (∃ rows, flatten_data days = .ok rows) ↔
      ∀ day ∈ days, day.date.isSome = true ∧
        (∀ l ∈ langsOf day, l.name.isSome = true) ∧
        (∀ e ∈ editorsOf day, e.name.isSome = true) := by
  unfold flatten_data
  rw [exMap_isOk_iff]
  constructor
  · intro h day hday
    have hwf := (flattenDay_isOk_iff day).mp (h day hday)
    unfold flattenWF at hwf
    rw [Bool.and_eq_true, Bool.and_eq_true, List.all_eq_true, List.all_eq_true] at hwf
    exact ⟨hwf.1.1, hwf.1.2, hwf.2⟩
  · intro h day hday
    refine (flattenDay_isOk_iff day).mpr ?_
    obtain ⟨h1, h2, h3⟩ := h day hday
    unfold flattenWF
    rw [Bool.and_eq_true, Bool.and_eq_true, List.all_eq_true, List.all_eq_true]
    exact ⟨⟨h1, h2⟩, h3⟩

/-- Counterexample to C9 as stated: `prefixClashDay` lists two languages
with engaged-user counts 1 and 2, yet the column named after the first
language holds 9 (the homonymous editor column overwrote it), not 1. -/
theorem flatten_two_languages_counterexample :
    flatten_data [prefixClashDay] = .ok [prefixClashRow] ∧
    dictGet prefixClashRow "editor_vscode" = some (Value.int 9) ∧
    some (Value.int 9) ≠ some (Value.int 1) := by
  refine ⟨by rfl, by rfl, by decide⟩

/-- Claim C9 (amended): for a day whose completions section lists exactly
two languages with distinct names, each of the two columns equals its own
language's engaged-user count — provided no `editor_`-prefixed editor
column of that day collides with either language name. -/
theorem flatten_two_languages_independent (day : Day) (l1 l2 : LangEntry)
    (n1 n2 : String)
    (hls : langsOf day = [l1, l2])
    (hname1 : l1.name = some n1)
    (hname2 : l2.name = some n2)
    (hn : n1 ≠ n2)
    (hdate : day.date.isSome = true)
    (heds : ∀ e ∈ editorsOf day, e.name.isSome = true ∧
      ∀ n, e.name = some n → "editor_" ++ n ≠ n1 ∧ "editor_" ++ n ≠ n2) :
    ∃ r, flattenDay day = .ok r ∧
      dictGet r n1 = some (Value.int (l1.total_engaged_users.getD 0)) ∧
      dictGet r n2 = some (Value.int (l2.total_engaged_users.getD 0)) := by
  have hlp : exMap langPairF (langsOf day) =
      .ok [(n1, Value.int (l1.total_engaged_users.getD 0)),
           (n2, Value.int (l2.total_engaged_users.getD 0))] := by
    rw [hls]
    simp [exMap, langPairF, hname1, hname2]
  obtain ⟨r, hr⟩ := (flattenDay_isOk_iff day).mpr (by
    unfold flattenWF
    rw [Bool.and_eq_true, Bool.and_eq_true, List.all_eq_true, List.all_eq_true]
    refine ⟨⟨hdate, ?_⟩, fun e he => (heds e he).1⟩
    intro l hl
    rw [hls] at hl
    simp only [List.mem_cons, List.not_mem_nil, or_false] at hl
    rcases hl with rfl | rfl
    · rw [hname1]; rfl
    · rw [hname2]; rfl)
  refine ⟨r, hr, ?_⟩
  have key : ∀ k : String, k ∉ dayEditorCols day →
      ∃ date, day.date = some date ∧
        dictGet r k = optOr (dictGet (buildDict
          [(n1, Value.int (l1.total_engaged_users.getD 0)),
           (n2, Value.int (l2.total_engaged_users.getD 0))]) k)
          (dictGet (baseRecord date day) k) := by
    intro k hk
    obtain ⟨date, lp, hd, hl, hget⟩ := dictGet_flattenDay hr hk
    rw [hl] at hlp
    cases hlp
    exact ⟨date, hd, hget⟩
  have hed1 : n1 ∉ dayEditorCols day := by
    intro hmem
    obtain ⟨e, he, n, hn2, heq⟩ := mem_dayEditorCols_iff.mp hmem
    exact ((heds e he).2 n hn2).1 heq.symm
  have hed2 : n2 ∉ dayEditorCols day := by
    intro hmem
    obtain ⟨e, he, n, hn2, heq⟩ := mem_dayEditorCols_iff.mp hmem
    exact ((heds e he).2 n hn2).2 heq.symm
  obtain ⟨date1, _, hget1⟩ := key n1 hed1
  obtain ⟨date2, _, hget2⟩ := key n2 hed2
  constructor
  · rw [hget1]
    rw [show buildDict [(n1, Value.int (l1.total_engaged_users.getD 0)),
          (n2, Value.int (l2.total_engaged_users.getD 0))] =
        dictInsert (dictInsert [] n1 (Value.int (l1.total_engaged_users.getD 0)))
          n2 (Value.int (l2.total_engaged_users.getD 0)) from rfl]
    rw [dictGet_dictInsert_ne _ _ (Ne.symm hn), dictGet_dictInsert_self]
    rfl
  · rw [hget2]
    rw [show buildDict [(n1, Value.int (l1.total_engaged_users.getD 0)),
          (n2, Value.int (l2.total_engaged_users.getD 0))] =
        dictInsert (dictInsert [] n1 (Value.int (l1.total_engaged_users.getD 0)))
          n2 (Value.int (l2.total_engaged_users.getD 0)) from rfl]
    rw [dictGet_dictInsert_self]
    rfl

/-- Witness for the amended C9 at a concrete two-language day. -/
theorem flatten_two_languages_independent_witness :
    ∃ r, flattenDay
      ⟨some "2024-01-06", none,
       some ⟨none,
         some [⟨some "python", some 3, none, none, none, none⟩,
               ⟨some "js", some 4, none, none, none, none⟩],
         some [⟨some "vscode", some 9, none⟩]⟩,
       none, none, none, none⟩ = .ok r ∧
      dictGet r "python" = some (Value.int 3) ∧
      dictGet r "js" = some (Value.int 4) := by
  have h := flatten_two_languages_independent
    ⟨some "2024-01-06", none,
     some ⟨none,
       some [⟨some "python", some 3, none, none, none, none⟩,
             ⟨some "js", some 4, none, none, none, none⟩],
       some [⟨some "vscode", some 9, none⟩]⟩,
     none, none, none, none⟩
    ⟨some "python", some 3, none, none, none, none⟩
    ⟨some "js", some 4, none, none, none, none⟩
    "python" "js" (by rfl) (by rfl) (by rfl) (by decide) (by rfl) (by decide)
  simpa using h

/-- Claim C10: when a day names a language after one of the seven fixed
columns, the flattened record maps that column to the language map's
engaged-user count — the language map is merged after the fixed fields and
overwrites them, and no `editor_`-prefixed column can restore them. -/
theorem flatten_language_overwrites_fixed (day : Day) (r lu : Dict)
    (k : String) (v : Value)
    (hok : flattenDay day = .ok r)
    (hlu : language_usage day = .ok lu)
    (hk : k ∈ fixedKeys)
    (hv : dictGet lu k = some v) :
    dictGet r k = some v := by
  obtain ⟨date, lp, hd, hl, hget⟩ := dictGet_flattenDay hok (fixed_not_editorCol hk)
  unfold language_usage at hlu
  rw [hl] at hlu
  cases hlu
  rw [hget, hv]
  rfl

/-- Witness for C10: a language named `total_active_users` with 42 engaged
users overwrites the fixed column (whose top-level total was 10). -/
theorem flatten_language_overwrites_fixed_witness :
    dictGet [("date", Value.str "2024-01-07"),
             ("ide_chat_users", Value.int 0),
             ("code_completion_users", Value.int 0),
             ("dotcom_chat_users", Value.int 0),
             ("pr_users", Value.int 0),
             ("total_active_users", Value.int 42),
             ("total_engaged_users", Value.int 0)] "total_active_users" =
      some (Value.int 42) :=
  flatten_language_overwrites_fixed
    ⟨some "2024-01-07", none,
     some ⟨none, some [⟨some "total_active_users", some 42, none, none, none, none⟩], none⟩,
     none, none, some 10, none⟩
    [("date", Value.str "2024-01-07"),
     ("ide_chat_users", Value.int 0),
     ("code_completion_users", Value.int 0),
     ("dotcom_chat_users", Value.int 0),
     ("pr_users", Value.int 0),
     ("total_active_users", Value.int 42),
     ("total_engaged_users", Value.int 0)]
    [("total_active_users", Value.int 42)]
    "total_active_users" (Value.int 42)
    (by rfl) (by rfl) (by decide) (by rfl)

lemma extractDay_ok {day : Day} (hwf : extractWF day = true) :
    extractDay day = .ok (dayTriples day) := by
  unfold extractWF at hwf
  rw [Bool.and_eq_true, List.all_eq_true] at hwf
  obtain ⟨hdate, heds⟩ := hwf
  obtain ⟨date, hd⟩ := Option.isSome_iff_exists.mp hdate
  have hmap : exMap (extractEditor date) (editorsOf day) =
      .ok ((editorsOf day).map (fun e =>
        ((modelsOf e).map (fun m => (modelLangsOf m).map (fun l =>
          (⟨date, e.name.getD "", l.name.getD "",
            l.total_engaged_users.getD 0,
            l.total_code_acceptances.getD 0,
            l.total_code_suggestions.getD 0,
            l.total_code_lines_accepted.getD 0,
            l.total_code_lines_suggested.getD 0⟩ : LDRow)))).flatten)) := by
    apply exMap_eq_ok_map
    intro e he
    have hewf := heds e he
    rw [Bool.and_eq_true, List.all_eq_true] at hewf
    obtain ⟨hen, hms⟩ := hewf
    obtain ⟨en, hen2⟩ := Option.isSome_iff_exists.mp hen
    have hmm : exMap (fun m => exMap (extractLang date en) (modelLangsOf m)) (modelsOf e) =
        .ok ((modelsOf e).map (fun m => (modelLangsOf m).map (fun l =>
          (⟨date, en, l.name.getD "",
            l.total_engaged_users.getD 0,
            l.total_code_acceptances.getD 0,
            l.total_code_suggestions.getD 0,
            l.total_code_lines_accepted.getD 0,
            l.total_code_lines_suggested.getD 0⟩ : LDRow)))) := by
      apply exMap_eq_ok_map
      intro m hm
      apply exMap_eq_ok_map
      intro l hl
      have hlwf := hms m hm
      rw [List.all_eq_true] at hlwf
      obtain ⟨n, hn⟩ := Option.isSome_iff_exists.mp (hlwf l hl)
      simp [extractLang, hn]
    unfold extractEditor
    simp only [hen2, hmm, Option.getD_some]
  unfold extractDay
  simp only [hd, hmap]
  unfold dayTriples
  simp only [hd, Option.getD_some]

lemma length_dayTriples (day : Day) : (dayTriples day).length = tripleCount day := by
  unfold dayTriples tripleCount
  rw [List.length_flatten, List.map_map]
  apply congrArg List.sum
  apply List.map_congr_left
  intro e _
  simp only [Function.comp_apply, List.length_flatten, List.map_map]
  apply congrArg List.sum
  apply List.map_congr_left
  intro m _
  simp [Function.comp, List.length_map]

/-- Claim C6: on well-formed inputs the extractor emits the days' rows in
nested traversal order with no deduplication — one row per
(editor, model, language) triple with each of the five counters defaulted
to 0 when missing — its total row count is the sum over days of the triple
count, and a day with zero editors contributes zero rows. -/
theorem extract_one_row_per_triple (data : List Day)
    (hwf : ∀ day ∈ data, extractWF day = true) :
    extract_language_acceptance_data data = .ok ((data.map dayTriples).flatten) ∧
    ((data.map dayTriples).flatten).length = (data.map tripleCount).sum ∧
    (∀ day ∈ data, editorsOf day = [] → dayTriples day = []) := by
  refine ⟨?_, ?_, ?_⟩
  · have h : exMap extractDay data = .ok (data.map dayTriples) :=
      exMap_eq_ok_map (fun day hday => extractDay_ok (hwf day hday))
    unfold extract_language_acceptance_data
    rw [h]
  · rw [List.length_flatten, List.map_map]
    apply congrArg List.sum
    apply List.map_congr_left
    intro day _
    simp [Function.comp, length_dayTriples]
  · intro day _ h
    simp [dayTriples, h]

/-- Witness for C6 at `tripleDay`: three rows, one per triple. -/
theorem extract_one_row_per_triple_witness :
    extract_language_acceptance_data [tripleDay] =
      .ok (([tripleDay].map dayTriples).flatten) ∧
    (([tripleDay].map dayTriples).flatten).length = ([tripleDay].map tripleCount).sum := by
  have h := extract_one_row_per_triple [tripleDay] (by decide)
  exact ⟨h.1, h.2.1⟩

lemma groupRate_eq (key : LDRow → String) (num den : LDRow → Int)
    (rows : List LDRow) (k : String) :
    groupRate key num den rows k =
      .val (if sumBy key den rows k = 0 then 0
            else ((sumBy key num rows k : Int) : ℚ) /
                 ((sumBy key den rows k : Int) : ℚ) * 100) := by
  unfold groupRate
  by_cases hs : sumBy key den rows k = 0
  · rw [if_pos hs, hs]
    rcases lt_trichotomy ((sumBy key num rows k : Int) : ℚ) 0 with h | h | h
    · rw [show ((((0 : Int) : ℚ)) = (0 : ℚ)) from rfl]
      rw [show pdiv (.val ((sumBy key num rows k : Int) : ℚ)) (.val 0) =
        (if ((sumBy key num rows k : Int) : ℚ) = 0 then PFloat.nan
         else if ((sumBy key num rows k : Int) : ℚ) > 0 then PFloat.inf
         else PFloat.ninf) by simp [pdiv]]
      rw [if_neg (ne_of_lt h), if_neg (not_lt.mpr (le_of_lt h))]
      rfl
    · rw [show ((((0 : Int) : ℚ)) = (0 : ℚ)) from rfl]
      rw [show pdiv (.val ((sumBy key num rows k : Int) : ℚ)) (.val 0) =
        (if ((sumBy key num rows k : Int) : ℚ) = 0 then PFloat.nan
         else if ((sumBy key num rows k : Int) : ℚ) > 0 then PFloat.inf
         else PFloat.ninf) by simp [pdiv]]
      rw [if_pos h]
      rfl
    · rw [show ((((0 : Int) : ℚ)) = (0 : ℚ)) from rfl]
      rw [show pdiv (.val ((sumBy key num rows k : Int) : ℚ)) (.val 0) =
        (if ((sumBy key num rows k : Int) : ℚ) = 0 then PFloat.nan
         else if ((sumBy key num rows k : Int) : ℚ) > 0 then PFloat.inf
         else PFloat.ninf) by simp [pdiv]]
      rw [if_neg (ne_of_gt h), if_pos h]
      rfl
  · rw [if_neg hs]
    have hs2 : ((sumBy key den rows k : Int) : ℚ) ≠ 0 := Int.cast_ne_zero.mpr hs
    rw [show pdiv (.val ((sumBy key num rows k : Int) : ℚ))
          (.val ((sumBy key den rows k : Int) : ℚ)) =
        .val (((sumBy key num rows k : Int) : ℚ) / ((sumBy key den rows k : Int) : ℚ))
      by simp [pdiv, hs2]]
    rfl

/-- Claim C1: for every language group and every date group of a
language-detail table, the normalized acceptance rate (and, for language
groups, the lines acceptance rate) equals summed numerator over summed
denominator times 100 when the summed denominator is nonzero, and is the
finite value 0 — never NaN or an infinity — when the summed denominator is
zero, whatever the numerator; the guarded overall rates are likewise 0 on
zero totals. -/
theorem acceptance_rate_zero_safe (rows : List LDRow) (l d : String)
    (_hl : l ∈ rows.map (·.language)) (_hd : d ∈ rows.map (·.date)) :
    (acceptanceRateByLanguage rows l =
      .val (if sumBy (·.language) (·.total_code_suggestions) rows l = 0 then 0
            else ((sumBy (·.language) (·.total_code_acceptances) rows l : Int) : ℚ) /
                 ((sumBy (·.language) (·.total_code_suggestions) rows l : Int) : ℚ) * 100)) ∧
    (linesAcceptanceRateByLanguage rows l =
      .val (if sumBy (·.language) (·.total_code_lines_suggested) rows l = 0 then 0
            else ((sumBy (·.language) (·.total_code_lines_accepted) rows l : Int) : ℚ) /
                 ((sumBy (·.language) (·.total_code_lines_suggested) rows l : Int) : ℚ) * 100)) ∧
    (acceptanceRateByDate rows d =
      .val (if sumBy (·.date) (·.total_code_suggestions) rows d = 0 then 0
            else ((sumBy (·.date) (·.total_code_acceptances) rows d : Int) : ℚ) /
                 ((sumBy (·.date) (·.total_code_suggestions) rows d : Int) : ℚ) * 100)) ∧
    ((rows.map (·.total_code_suggestions)).sum = 0 → overall_acceptance_rate rows = 0) ∧
    ((rows.map (·.total_code_lines_suggested)).sum = 0 →
      overall_lines_acceptance_rate rows = 0) := by
  refine ⟨groupRate_eq _ _ _ rows l, groupRate_eq _ _ _ rows l,
          groupRate_eq _ _ _ rows d, ?_, ?_⟩
  · intro h
    unfold overall_acceptance_rate
    rw [h]
    rfl
  · intro h
    unfold overall_lines_acceptance_rate
    rw [h]
    rfl

/-- Witness for C1: with 0 summed suggestions and 5 acceptances, the
normalized language and date rates are the finite value 0. -/
theorem acceptance_rate_zero_safe_witness :
    acceptanceRateByLanguage [zeroSuggRow] "python" = .val 0 ∧
    acceptanceRateByDate [zeroSuggRow] "2024-01-01" = .val 0 := by
  have h := acceptance_rate_zero_safe [zeroSuggRow] "python" "2024-01-01"
    (by decide) (by decide)
  exact ⟨h.1.trans (by rfl), h.2.2.1.trans (by rfl)⟩

end CopilotMetrics
